import Mathlib

set_option maxRecDepth 8000

/-!
Verification of the core logic of a facial-recognition attendance
application (one Python source file, `gui_attendance_system.py`).

The attendance ledger, the filename-to-display-name derivation, the
nearest-neighbour matching policy, the one-slot frame channel and the
camera worker state machine are embedded as executable Lean definitions.
Python strings are modelled as lists of characters, the ledger file as an
optional list of rows (without trailing newlines), and the external vision
and capture libraries as inputs supplied to the embedded functions.
-/

/-- Python strings (filenames, names, CSV rows) are lists of characters. -/
abbrev Chars := List Char

/-- Python `str.isspace` restricted to the ASCII whitespace characters
(the inputs of interest are ASCII). -/
def py_isspace (c : Char) : Bool :=
  c == ' ' || c == '\t' || c == '\n' || c == '\r' || c == '\x0b' || c == '\x0c'

/-- Python `str.strip()`: drop leading and trailing whitespace. -/
def py_strip (s : Chars) : Chars :=
  ((s.dropWhile py_isspace).reverse.dropWhile py_isspace).reverse

/-- The header row written when the ledger file is created (line 110 of the
source): the characters of "Name,Timestamp". -/
def csv_header : Chars := "Name,Timestamp".data

/-- The ledger row appended for one attendance event (line 111 of the
source, without the trailing newline): `name ++ "," ++ ts`. -/
def att_row (name ts : Chars) : Chars := name ++ ',' :: ts

/-- State owned by `FaceDataManager` for attendance: the ledger file
(`none` when `Attendance.csv` is absent, otherwise its rows) and the
in-memory set `logged_people` of names already logged today. -/
structure LedgerState where
  file : Option (List Chars)
  logged : List Chars
deriving DecidableEq

/-- `FaceDataManager.load_today_log` (lines 82-101): rebuild the
logged-today set from the ledger file.  A missing file yields the empty
set; otherwise the header line is skipped and a name is kept when its row
has at least two comma-separated fields and the second starts with today's
date string. -/
def load_today_log (today : Chars) (file : Option (List Chars)) : List Chars :=
  match file with
  | none => []
  | some [] => []
  | some (_ :: rest) =>
    rest.foldl (fun acc line =>
      let parts := List.splitOn ',' (py_strip line)
      if 2 ≤ parts.length ∧ List.isPrefixOf today (parts.getD 1 []) then
        acc.insert (parts.getD 0 [])
      else acc) []

/-- `FaceDataManager.mark_attendance` (lines 103-114): if `name` is already
in the logged-today set, return the state unchanged and `false`; otherwise
append one row (creating the file with the header when it does not exist),
add the name to the set, and return `true`.  `ts` is the current timestamp
string. -/
def mark_attendance (ts : Chars) (st : LedgerState) (name : Chars) :
    LedgerState × Bool :=
  if name ∈ st.logged then (st, false)
  else
    ({ file := some (match st.file with
        | some rows => rows ++ [att_row name ts]
        | none => [csv_header, att_row name ts]),
       logged := name :: st.logged }, true)

/-- `FaceDataManager.mark_attendance` with an explicit fault point at the
file write: `writeOk = false` models the `open`/`write` on lines 108-111
raising, in which case control leaves the method before the
`self.logged_people.add(name)` on line 112 runs, so the in-memory set is
unchanged.  (The contents of a partially written file are not modelled;
the claims about this path concern only the in-memory set.) -/
def mark_attendance_w (writeOk : Bool) (ts : Chars) (st : LedgerState)
    (name : Chars) : LedgerState × Except Unit Bool :=
  if name ∈ st.logged then (st, Except.ok false)
  else if writeOk then
    ({ file := some (match st.file with
        | some rows => rows ++ [att_row name ts]
        | none => [csv_header, att_row name ts]),
       logged := name :: st.logged }, Except.ok true)
  else (st, Except.error ())

/-- Frames are abstract image buffers, identified by a number. -/
abbrev Frame := Nat

/-- Replace every occurrence of character a by b (Python str.replace with
single-character arguments, line 60). -/
def replaceChar (a b : Char) (l : Chars) : Chars :=
  l.map fun c => if c = a then b else c

/-- Index of the last dot in a filename, if any. -/
def lastDotIndex (f : Chars) : Option Nat :=
  (List.range f.length).foldl
    (fun acc i => if f.getD i ' ' = '.' then some i else acc) none

/-- Stem of os.path.splitext: cut at the last dot unless every character
before it is a dot (Python keeps names made only of leading dots whole). -/
def splitext_stem (f : Chars) : Chars :=
  match lastDotIndex f with
  | none => f
  | some i => if (f.take i).all (fun c => c == '.') then f else f.take i

/-- Python str.isdigit on ASCII strings: nonempty and all digits. -/
def py_isdigit (s : Chars) : Bool := !s.isEmpty && s.all Char.isDigit

/-- Name cleanup of FaceDataManager.load_known_faces (lines 59-62): strip
the extension, replace underscores with spaces, then — only if an
underscore is still present and the last underscore-separated part is
numeric — drop that trailing part. -/
def derive_name (fname : Chars) : Chars :=
  let name := replaceChar '_' ' ' (splitext_stem fname)
  if '_' ∈ name ∧ py_isdigit ((List.splitOn '_' name).getLastD []) then
    List.intercalate ['_'] (List.splitOn '_' name).dropLast
  else name

/-- The extension filter on line 56: fname.lower() must end with .jpg,
.jpeg or .png. -/
def isImageFile (f : Chars) : Bool :=
  let lf := f.map Char.toLower
  List.isSuffixOf ".jpg".data lf || List.isSuffixOf ".jpeg".data lf ||
    List.isSuffixOf ".png".data lf

/-- Face embeddings (fixed-length float vectors in the source) are
modelled as rational vectors. -/
abbrev Enc := List ℚ

/-- The gallery state owned by FaceDataManager: parallel lists of
encodings and display names. -/
structure Gallery where
  known_encodings : List Enc
  known_names : List Chars
deriving DecidableEq

/-- Loop body of load_known_faces (lines 55-77): one directory entry per
element, paired with the result of face_encodings on that file (none when
no face is found or loading raises, in which case the file is skipped);
encodings and names are appended in lockstep. -/
def load_faces_go :
    List (Chars × Option Enc) → List Enc → List Chars → List Enc × List Chars
  | [], es, ns => (es, ns)
  | (f, oe) :: rest, es, ns =>
    if isImageFile f then
      match oe with
      | some e => load_faces_go rest (es ++ [e]) (ns ++ [derive_name f])
      | none => load_faces_go rest es ns
    else load_faces_go rest es ns

/-- FaceDataManager.load_known_faces (lines 44-80): when the directory is
missing it is created and the method returns with the gallery unchanged;
otherwise the gallery is replaced wholesale by the lists built from the
directory listing. -/
def load_known_faces (g : Gallery) (dirExists : Bool)
    (files : List (Chars × Option Enc)) : Gallery :=
  if dirExists then
    { known_encodings := (load_faces_go files [] []).1,
      known_names := (load_faces_go files [] []).2 }
  else g

/-- FaceDataManager.save_new_face (lines 116-127): raises on an empty
frame list, otherwise writes the numbered image files and reloads the
gallery; `files` is the directory listing (with per-file encoding
results) seen by that reload. -/
def save_new_face (g : Gallery) (frames : List Frame) (dirExists : Bool)
    (files : List (Chars × Option Enc)) : Except String Gallery :=
  if frames.isEmpty then Except.error "No frames to save!"
  else Except.ok (load_known_faces g dirExists files)

/-- The gallery invariant: encodings and names have equal length. -/
def galleryInv (g : Gallery) : Prop :=
  g.known_encodings.length = g.known_names.length

/-- np.argmin on a list of distances: index of the first occurrence of
the minimum (0 on the empty list). -/
def argmin_idx : List ℚ → Nat
  | [] => 0
  | [_] => 0
  | x :: y :: rest =>
    if (y :: rest).getD (argmin_idx (y :: rest)) 0 < x then
      argmin_idx (y :: rest) + 1
    else 0

/-- The sentinel identity rendered for unmatched faces. -/
def unknown_name : Chars := "Unknown".data

/-- Modelled from the spec: the threshold test of the external
compare_faces black box, which is not part of this repository's source —
"a match exists only if the nearest neighbor's distance is below a fixed
tolerance threshold". -/
def compare_face (tol d : ℚ) : Bool := d < tol

/-- Per-embedding matching policy of CameraThread.run (lines 176-186).
`ds` is the output of the external face_distance call: one distance per
known encoding, in gallery order, so ds is empty exactly when the gallery
is empty (the code guards on a nonempty known_encodings list and on
len(distances) > 0).  The returned Bool records whether mark_attendance
is called. -/
def recognize (tol : ℚ) (gnames : List Chars) (ds : List ℚ) : Chars × Bool :=
  if ds.isEmpty then (unknown_name, false)
  else if compare_face tol (ds.getD (argmin_idx ds) 0) then
    (gnames.getD (argmin_idx ds) unknown_name, true)
  else (unknown_name, false)

/-- Name validation of RegistrationWindow.process_capture (lines 247-249):
the entry text is stripped, then the capture is rejected (a warning box is
shown and no snapshot is taken) when the result is empty, contains a space
character, or does not start with an alphabetic character.  Returns true
exactly when the capture is rejected. -/
def name_rejected (raw : Chars) : Bool :=
  let name := py_strip raw
  name.isEmpty || name.contains ' ' || !(name.headD ' ').isAlpha

/-- The rejection condition in the words of the claim, for comparison
with name_rejected: the entered name is empty, contains whitespace, or
does not start with a letter. -/
def claim_rejected (name : Chars) : Bool :=
  name.isEmpty || name.any Char.isWhitespace || !(name.headD ' ').isAlpha

/-- The one-slot frame channel queue.Queue(maxsize=1) (line 290). -/
abbrev Slot := Option Frame

/-- The producer-side publish (lines 196-197): put the frame only if the
queue is not full — never blocks; when the slot is occupied the new frame
is dropped. -/
def publish (s : Slot) (f : Frame) : Slot :=
  if s.isSome then s else some f

/-- States of the capture worker. -/
inductive CamState
  | initializing
  | running
  | stopped
deriving DecidableEq

/-- CameraThread.init_camera (lines 142-153): try device indices 0 then
1; openOk tells which indices open.  Returns the opened index, if any. -/
def init_camera (openOk : Nat → Bool) : Option Nat :=
  if openOk 0 then some 0 else if openOk 1 then some 1 else none

/-- One iteration of the capture loop, as seen through the external
collaborators: the cap.read result (none models a transient failure) and,
for a valid frame, the face_distance vector of each face detected in it. -/
structure IterInput where
  read : Option Frame
  probes : List (List ℚ)
deriving DecidableEq

/-- Mutable state threaded through the capture loop. -/
structure LoopState where
  slot : Slot
  puts : List Frame
  latest : Option Frame
  ledger : LedgerState
  marks : List Chars
deriving DecidableEq

/-- Observable outcome of one CameraThread.run execution. -/
structure RunResult where
  statesVisited : List CamState
  published : List Frame
  slot : Slot
  marks : List Chars
  ledger : LedgerState
  fatalReports : Nat
  acquired : Option Nat
  released : Bool

/-- Body of the while loop of CameraThread.run (lines 160-199): a failed
read only retries; a valid frame updates latest_frame, runs the matching
policy on each detected face (calling mark_attendance for each matched
name), and puts the annotated frame into the channel when it is free. -/
def step (tol : ℚ) (ts : Chars) (gnames : List Chars) (st : LoopState)
    (it : IterInput) : LoopState :=
  match it.read with
  | none => st
  | some f =>
    let lm := it.probes.foldl (fun acc ds =>
        let r := recognize tol gnames ds
        if r.2 then ((mark_attendance ts acc.1 r.1).1, acc.2 ++ [r.1])
        else acc) (st.ledger, st.marks)
    { slot := publish st.slot f,
      puts := if st.slot.isSome then st.puts else st.puts ++ [f],
      latest := some f,
      ledger := lm.1,
      marks := lm.2 }

/-- CameraThread.run (lines 155-202): if no device index opens, the fatal
error is reported once and the function returns at line 157 — the loop is
never entered, nothing is published, the ledger is untouched, and no
release is performed (no device was acquired).  Otherwise the loop
processes the iteration inputs until the stop flag ends the loop (the end
of iters is the iteration at which self.running is observed false), after
which the device is released unconditionally (lines 201-202). -/
def run (tol : ℚ) (ts : Chars) (gnames : List Chars) (ledger0 : LedgerState)
    (openOk : Nat → Bool) (iters : List IterInput) : RunResult :=
  match init_camera openOk with
  | none =>
    { statesVisited := [CamState.initializing, CamState.stopped],
      published := [], slot := none, marks := [], ledger := ledger0,
      fatalReports := 1, acquired := none, released := false }
  | some idx =>
    let fin := iters.foldl (step tol ts gnames) ⟨none, [], none, ledger0, []⟩
    { statesVisited := [CamState.initializing, CamState.running, CamState.stopped],
      published := fin.puts, slot := fin.slot, marks := fin.marks,
      ledger := fin.ledger, fatalReports := 0, acquired := some idx,
      released := true }

/-- A call with a name already in the logged-today set is a pure no-op
returning false. -/
lemma mark_attendance_mem (ts : Chars) (st : LedgerState) (name : Chars)
    (h : name ∈ st.logged) : mark_attendance ts st name = (st, false) := by
  simp [mark_attendance, h]

/-- After any call, the name is in the logged-today set of the resulting
state. -/
lemma mark_attendance_logged_mem (ts : Chars) (st : LedgerState)
    (name : Chars) : name ∈ (mark_attendance ts st name).1.logged := by
  by_cases h : name ∈ st.logged <;> simp [mark_attendance, h]

/-- C3: markPresent (mark_attendance) is idempotent within one calendar
day: if the name is already in the logged-today set the call leaves the
state unchanged and returns false; calling it twice in a row with the same
name makes the second call return false and leave the state of the first
call unchanged, and when the name was not yet logged the two calls append
exactly one ledger row in total (plus the header when the file is
created). -/
theorem C3_mark_attendance_idempotent (ts1 ts2 : Chars) (st : LedgerState)
    (name : Chars) :
    (name ∈ st.logged → mark_attendance ts1 st name = (st, false)) ∧
    (mark_attendance ts2 (mark_attendance ts1 st name).1 name).2 = false ∧
    (mark_attendance ts2 (mark_attendance ts1 st name).1 name).1
      = (mark_attendance ts1 st name).1 ∧
    (name ∉ st.logged →
      (mark_attendance ts1 st name).1.file
        = some (st.file.getD [csv_header] ++ [att_row name ts1])) := by
  have h2 := mark_attendance_mem ts2 (mark_attendance ts1 st name).1 name
    (mark_attendance_logged_mem ts1 st name)
  refine ⟨fun h => mark_attendance_mem ts1 st name h,
    by rw [h2], by rw [h2], fun h => ?_⟩
  cases hf : st.file <;> simp [mark_attendance, h, hf]

/-- Witness for C3 at concrete inputs: a name already logged is a no-op
returning false; for a fresh name the second call returns false and the
first call appended exactly one row. -/
theorem C3_witness :
    mark_attendance "u".data ⟨some [csv_header], ["Bob".data]⟩ "Bob".data
      = (⟨some [csv_header], ["Bob".data]⟩, false) ∧
    (mark_attendance "u".data
      (mark_attendance "t".data ⟨some [csv_header], []⟩ "Alice".data).1
      "Alice".data).2 = false ∧
    (mark_attendance "t".data ⟨some [csv_header], []⟩ "Alice".data).1.file
      = some ((some [csv_header] : Option (List Chars)).getD [csv_header]
          ++ [att_row "Alice".data "t".data]) := by
  refine ⟨(C3_mark_attendance_idempotent "u".data "u".data
      ⟨some [csv_header], ["Bob".data]⟩ "Bob".data).1 (by decide),
    (C3_mark_attendance_idempotent "t".data "u".data
      ⟨some [csv_header], []⟩ "Alice".data).2.1,
    (C3_mark_attendance_idempotent "t".data "u".data
      ⟨some [csv_header], []⟩ "Alice".data).2.2.2 (by decide)⟩

/-- C4: when the ledger file is absent, load_today_log yields the empty
logged-today set without error, and the first subsequent
markPresent("Alice") call creates the file containing the header row plus
exactly one row for Alice with the current timestamp, adds Alice to the
in-memory set, and returns true. -/
theorem C4_absent_ledger_first_mark (today ts : Chars) :
    load_today_log today none = [] ∧
    mark_attendance ts ⟨none, load_today_log today none⟩ "Alice".data
      = (⟨some [csv_header, att_row "Alice".data ts], ["Alice".data]⟩, true) := by
  constructor
  · rfl
  · simp [load_today_log, mark_attendance]

/-- C9: if the ledger append performed by mark_attendance raises before
completing, the in-memory logged-today set is left unchanged (the name is
added only after the write succeeded); on a successful write the name is
added exactly when it was not yet logged, and the file is updated exactly
as in the non-faulty function. -/
theorem C9_failed_write_leaves_set (ts : Chars) (st : LedgerState)
    (name : Chars) :
    (mark_attendance_w false ts st name).1.logged = st.logged ∧
    (mark_attendance_w true ts st name).1.logged
      = (if name ∈ st.logged then st.logged else name :: st.logged) ∧
    (mark_attendance_w true ts st name).1.file
      = (mark_attendance ts st name).1.file := by
  by_cases h : name ∈ st.logged <;>
    simp [mark_attendance_w, mark_attendance, h]

/-- The replaced name contains no underscore, so the suffix-dropping
branch on lines 61-62 can never fire. -/
lemma not_mem_replaceChar (l : Chars) : '_' ∉ replaceChar '_' ' ' l := by
  intro hmem
  rw [replaceChar, List.mem_map] at hmem
  obtain ⟨a, _, ha⟩ := hmem
  by_cases h2 : a = '_'
  · rw [if_pos h2] at ha; exact absurd ha (by decide)
  · rw [if_neg h2] at ha; exact h2 ha

/-- C1: contrary to the claim, load_known_faces never drops a trailing
numeric disambiguator: underscores are replaced by spaces before the
suffix check, so the check on line 61 is dead code and the display name
is always the stem with underscores replaced by spaces.  In particular
Jane_Doe_1.jpg and Jane_Doe_2.jpg load under the distinct display names
"Jane Doe 1" and "Jane Doe 2" instead of sharing one display name. -/
theorem C1_name_derivation :
    (∀ fname : Chars,
      derive_name fname = replaceChar '_' ' ' (splitext_stem fname)) ∧
    derive_name "Jane_Doe_1.jpg".data = "Jane Doe 1".data ∧
    derive_name "Jane_Doe_2.jpg".data = "Jane Doe 2".data ∧
    "Jane Doe 1".data ≠ "Jane Doe 2".data := by
  have hdead : ∀ fname : Chars,
      derive_name fname = replaceChar '_' ' ' (splitext_stem fname) := by
    intro fname
    simp only [derive_name]
    exact if_neg (fun h => not_mem_replaceChar _ h.1)
  exact ⟨hdead, by decide, by decide, by decide⟩

lemma load_faces_go_length :
    ∀ (files : List (Chars × Option Enc)) (es : List Enc) (ns : List Chars),
    es.length = ns.length →
    (load_faces_go files es ns).1.length = (load_faces_go files es ns).2.length := by
  intro files
  induction files with
  | nil => intro es ns h; exact h
  | cons fe rest ih =>
    intro es ns h
    rcases fe with ⟨f, oe⟩
    by_cases hf : isImageFile f
    · cases oe with
      | none => simpa [load_faces_go, hf] using ih es ns h
      | some e =>
        simpa [load_faces_go, hf] using
          ih (es ++ [e]) (ns ++ [derive_name f]) (by simp [h])
    · cases oe <;> simpa [load_faces_go, hf] using ih es ns h

lemma argmin_idx_lt_length (l : List ℚ) (h : l ≠ []) :
    argmin_idx l < l.length := by
  induction l with
  | nil => exact absurd rfl h
  | cons x t ih =>
    cases t with
    | nil => simp [argmin_idx]
    | cons y rest =>
      simp only [argmin_idx]
      split
      · simpa using Nat.succ_lt_succ (ih (by simp))
      · simp

lemma argmin_idx_le (l : List ℚ) :
    ∀ j, j < l.length → l.getD (argmin_idx l) 0 ≤ l.getD j 0 := by
  induction l with
  | nil => intro j hj; simp at hj
  | cons x t ih =>
    cases t with
    | nil =>
      intro j hj
      have hj0 : j = 0 := by simpa using Nat.lt_one_iff.mp (by simpa using hj)
      subst hj0
      simp [argmin_idx]
    | cons y rest =>
      intro j hj
      simp only [argmin_idx]
      by_cases h : (y :: rest).getD (argmin_idx (y :: rest)) 0 < x
      · rw [if_pos h]
        cases j with
        | zero => simpa using le_of_lt h
        | succ m =>
          simp only [List.getD_cons_succ]
          exact ih m (by simpa using Nat.lt_of_succ_lt_succ hj)
      · rw [if_neg h]
        cases j with
        | zero => simp
        | succ m =>
          simp only [List.getD_cons_zero, List.getD_cons_succ]
          exact le_trans (not_lt.mp h)
            (ih m (by simpa using Nat.lt_of_succ_lt_succ hj))

lemma argmin_idx_first (l : List ℚ) :
    ∀ j, j < argmin_idx l → l.getD (argmin_idx l) 0 < l.getD j 0 := by
  induction l with
  | nil => intro j hj; simp [argmin_idx] at hj
  | cons x t ih =>
    cases t with
    | nil => intro j hj; simp [argmin_idx] at hj
    | cons y rest =>
      intro j hj
      simp only [argmin_idx] at hj ⊢
      by_cases h : (y :: rest).getD (argmin_idx (y :: rest)) 0 < x
      · rw [if_pos h] at hj ⊢
        cases j with
        | zero => simpa using h
        | succ m =>
          simp only [List.getD_cons_succ]
          exact ih m (Nat.lt_of_succ_lt_succ hj)
      · rw [if_neg h] at hj
        exact absurd hj (Nat.not_lt_zero j)

/-- On a nonempty distance list, recognize reduces to the threshold test
at the stable argmin. -/
lemma recognize_cons (tol : ℚ) (gnames : List Chars) (a : ℚ) (t : List ℚ) :
    recognize tol gnames (a :: t) =
      if compare_face tol ((a :: t).getD (argmin_idx (a :: t)) 0) then
        (gnames.getD (argmin_idx (a :: t)) unknown_name, true)
      else (unknown_name, false) := rfl

/-- C5: the matching policy computes the distance to every known
embedding and reports a match only if the nearest neighbour's distance is
below the tolerance, with ties broken by the first-encountered minimum
(stable argmin); when no match holds the face is reported as Unknown with
no attendance call, and with an empty gallery every probe is reported
Unknown and attendance is never marked. -/
theorem C5_matching_policy (tol : ℚ) (gnames : List Chars) (ds : List ℚ)
    (h : ds ≠ []) :
    (∀ j, j < ds.length → ds.getD (argmin_idx ds) 0 ≤ ds.getD j 0) ∧
    (∀ j, j < argmin_idx ds → ds.getD (argmin_idx ds) 0 < ds.getD j 0) ∧
    (ds.getD (argmin_idx ds) 0 < tol →
      recognize tol gnames ds = (gnames.getD (argmin_idx ds) unknown_name, true)) ∧
    (¬ ds.getD (argmin_idx ds) 0 < tol →
      recognize tol gnames ds = (unknown_name, false)) ∧
    recognize tol gnames [] = (unknown_name, false) := by
  refine ⟨argmin_idx_le ds, argmin_idx_first ds, ?_, ?_, rfl⟩
  · intro hlt
    cases ds with
    | nil => exact absurd rfl h
    | cons a t => rw [recognize_cons, if_pos (by simpa [compare_face] using hlt)]
  · intro hge
    cases ds with
    | nil => exact absurd rfl h
    | cons a t => rw [recognize_cons, if_neg (by simpa [compare_face] using hge)]

/-- Witness for C5 at a concrete gallery: the stable argmin is index 1,
its distance is within tolerance, and the empty gallery yields Unknown
with no attendance call. -/
theorem C5_witness :
    recognize 3 ["A".data, "B".data, "C".data] [2, 1, 1] = ("B".data, true) ∧
    recognize 3 ["A".data, "B".data, "C".data] [] = (unknown_name, false) := by
  have h := C5_matching_policy 3 ["A".data, "B".data, "C".data] [2, 1, 1]
    (by decide)
  have h3 := h.2.2.1 (by decide)
  refine ⟨?_, h.2.2.2.2⟩
  rw [h3]
  decide

/-- C10: the gallery invariant (as many encodings as names) holds after
construction and is preserved by load_known_faces and save_new_face,
since encodings and names are appended in lockstep and replaced together;
hence any argmin index over the distances to known_encodings is a valid
index into known_names. -/
theorem C10_gallery_invariant :
    galleryInv ⟨[], []⟩ ∧
    (∀ g d files, galleryInv g → galleryInv (load_known_faces g d files)) ∧
    (∀ g frames d files g2, galleryInv g →
      save_new_face g frames d files = Except.ok g2 → galleryInv g2) ∧
    (∀ g ds, galleryInv g → ds.length = g.known_encodings.length →
      ds ≠ [] → argmin_idx ds < g.known_names.length) := by
  have hload : ∀ g d files, galleryInv g → galleryInv (load_known_faces g d files) := by
    intro g d files hg
    cases d with
    | false => simpa [load_known_faces] using hg
    | true =>
      simpa [load_known_faces, galleryInv] using load_faces_go_length files [] [] rfl
  refine ⟨rfl, hload, ?_, ?_⟩
  · intro g frames d files g2 hg hok
    unfold save_new_face at hok
    by_cases hfr : frames.isEmpty
    · simp [hfr] at hok
    · simp [hfr] at hok
      exact hok ▸ hload g d files hg
  · intro g ds hg hlen hne
    have h := argmin_idx_lt_length ds hne
    unfold galleryInv at hg
    omega

/-- Witness for C10: the invariant holds after a concrete load that skips
a non-image file and a no-face file, and a concrete in-range argmin. -/
theorem C10_witness :
    galleryInv (load_known_faces ⟨[], []⟩ true
      [("Jane_Doe_1.jpg".data, some [1]), ("notes.txt".data, some [2]),
       ("Jane_Doe_2.jpg".data, none)]) ∧
    argmin_idx [2, 1] < (Gallery.mk [[1], [2]] ["A".data, "B".data]).known_names.length := by
  refine ⟨C10_gallery_invariant.2.1 ⟨[], []⟩ true _ rfl, ?_⟩
  exact C10_gallery_invariant.2.2.2 ⟨[[1], [2]], ["A".data, "B".data]⟩ [2, 1]
    rfl rfl (by decide)

lemma dropWhile_all_false {p : Char → Bool} (l : Chars)
    (h : ∀ c ∈ l, p c = false) : l.dropWhile p = l := by
  cases l with
  | nil => rfl
  | cons a t => simp [List.dropWhile, h a (List.mem_cons_self a t)]

lemma py_strip_id_of_clean (l : Chars)
    (h : ∀ c ∈ l, py_isspace c = false) : py_strip l = l := by
  unfold py_strip
  rw [dropWhile_all_false l h,
    dropWhile_all_false l.reverse (fun c hc => h c (List.mem_reverse.mp hc)),
    List.reverse_reverse]

lemma clean_char (c : Char) (h : (c.isAlpha || c == '_') = true) :
    py_isspace c = false := by
  by_contra hs
  rw [Bool.not_eq_false] at hs
  have hc : ((((c = ' ' ∨ c = '\t') ∨ c = '\n') ∨ c = '\x0d') ∨ c = '\x0b') ∨
      c = '\x0c' := by
    simpa [py_isspace] using hs
  rcases hc with ((((rfl | rfl) | rfl) | rfl) | rfl) | rfl <;>
    exact absurd h (by decide)

lemma clean_no_space (l : Chars)
    (hall : l.all (fun c => c.isAlpha || c == '_') = true) :
    l.contains ' ' = false := by
  by_contra h
  rw [Bool.not_eq_false] at h
  have hmem : ' ' ∈ l := by simpa using h
  exact absurd (List.all_eq_true.mp hall ' ' hmem) (by decide)

/-- C6 counterexample. -/
theorem C6_counterexample :
    claim_rejected ['A', '\t', 'B'] = true ∧
    name_rejected ['A', '\t', 'B'] = false := by decide

/-- C6 amended: the registration capture step rejects the entered name
exactly when, after stripping leading and trailing whitespace, it is
empty, contains a space character, or does not start with a letter;
names consisting only of letters and underscores that start with a
letter are accepted. -/
theorem C6_validation_amended (raw : Chars) :
    (name_rejected raw = true ↔
      (py_strip raw = [] ∨ ' ' ∈ py_strip raw ∨
        ((py_strip raw).headD ' ').isAlpha = false)) ∧
    (raw.all (fun c => c.isAlpha || c == '_') = true →
      (raw.headD ' ').isAlpha = true → name_rejected raw = false) := by
  constructor
  · constructor
    · intro h
      simp only [name_rejected, Bool.or_eq_true] at h
      rcases h with (h1 | h2) | h3
      · exact Or.inl (List.isEmpty_iff.mp h1)
      · exact Or.inr (Or.inl (List.elem_iff.mp h2))
      · exact Or.inr (Or.inr (by simpa using h3))
    · intro h
      simp only [name_rejected, Bool.or_eq_true]
      rcases h with h1 | h2 | h3
      · exact Or.inl (Or.inl (List.isEmpty_iff.mpr h1))
      · exact Or.inl (Or.inr (List.elem_iff.mpr h2))
      · exact Or.inr (by simpa using h3)
  · intro hall hhead
    simp only [name_rejected]
    rw [py_strip_id_of_clean raw (fun c hc => clean_char c (List.all_eq_true.mp hall c hc))]
    cases raw with
    | nil => exact absurd hhead (by decide)
    | cons a t =>
      have h1 : (a :: t).contains ' ' = false := clean_no_space (a :: t) hall
      have h2 : a.isAlpha = true := by simpa using hhead
      show (false || (a :: t).contains ' ' || !a.isAlpha) = false
      rw [h1, h2]
      rfl

/-- Witness for C6: a name of letters and one underscore starting with a
letter is accepted. -/
theorem C6_witness : name_rejected "Jane_Doe".data = false :=
  (C6_validation_amended "Jane_Doe".data).2 (by decide) (by decide)

/-- C2 counterexample: publishing 1 then 2 into the undrained slot leaves
frame 1, not the latest frame 2. -/
theorem C2_counterexample :
    List.foldl publish none [1, 2] = some 1 ∧
    List.foldl publish none [1, 2] ≠ some 2 := by decide

/-- C2 amended: the publish operation never blocks the producer (it is a
total operation performed once per frame), but under a consumer that
never drains, a publish into an occupied slot drops the new frame: the
slot permanently holds the first (oldest) unconsumed frame, not the
latest. -/
theorem C2_channel_never_blocks (f : Frame) (fs : List Frame) :
    List.foldl publish (some f) fs = some f ∧
    List.foldl publish none (f :: fs) = some f := by
  have h : ∀ gs : List Frame, List.foldl publish (some f) gs = some f := by
    intro gs
    induction gs with
    | nil => rfl
    | cons g t ih => simpa [publish] using ih
  exact ⟨h fs, by simpa [publish] using h fs⟩

/-- C7: if opening the capture device fails on index 0 and on index 1,
the worker transitions directly from Initializing to Stopped without
entering the Running loop: it publishes no frame, marks no attendance,
leaves the ledger untouched, and reports the fatal pipeline-disabled
error exactly once, with no retry. -/
theorem C7_no_camera_stops (tol : ℚ) (ts : Chars) (gnames : List Chars)
    (ledger0 : LedgerState) (openOk : Nat → Bool) (iters : List IterInput)
    (h0 : openOk 0 = false) (h1 : openOk 1 = false) :
    run tol ts gnames ledger0 openOk iters =
      { statesVisited := [CamState.initializing, CamState.stopped],
        published := [], slot := none, marks := [], ledger := ledger0,
        fatalReports := 1, acquired := none, released := false } := by
  simp [run, init_camera, h0, h1]

/-- Witness for C7 with a concretely failing device list. -/
theorem C7_witness :
    run 0 [] [] ⟨none, []⟩ (fun _ => false) [] =
      { statesVisited := [CamState.initializing, CamState.stopped],
        published := [], slot := none, marks := [], ledger := ⟨none, []⟩,
        fatalReports := 1, acquired := none, released := false } :=
  C7_no_camera_stops 0 [] [] ⟨none, []⟩ (fun _ => false) [] rfl rfl

/-- C8: whenever run terminates — stop flag observed, loop ended after
read failures, or initialization failed — any capture device that was
acquired is released before the function returns. -/
theorem C8_release_on_exit (tol : ℚ) (ts : Chars) (gnames : List Chars)
    (ledger0 : LedgerState) (openOk : Nat → Bool) (iters : List IterInput)
    (h : (run tol ts gnames ledger0 openOk iters).acquired.isSome = true) :
    (run tol ts gnames ledger0 openOk iters).released = true := by
  cases hi : init_camera openOk with
  | none => simp [run, hi] at h
  | some idx => simp [run, hi]

/-- Witness for C8 with a concretely opening device. -/
theorem C8_witness :
    (run 0 [] [] ⟨none, []⟩ (fun _ => true) []).released = true :=
  C8_release_on_exit 0 [] [] ⟨none, []⟩ (fun _ => true) [] rfl
